import Mathlib

/-!
Shallow embedding of the Multi-Threaded-Go port scanner.

Sources embedded here:
- `src/scanner.go` : the `Scanner` struct, its functional options, `NewScanner`,
  the concurrent `Scan` pipeline (modelled as a small-step transition system),
  and `isPortOpen`'s error classification.
- `src/unnamed/part_001` : `grabBanner`'s post-processing, `expandIPRange`,
  `guessOS`.

Go `int` is modelled as `Int`; `time.Duration` as `Int` (nanoseconds).
-/

namespace PortScan

/-- Go `context.Context`, reduced to the one observable the scanner uses:
whether the context can ever fire its `Done` channel.  `context.Background()`
can never be cancelled. -/
structure Ctx where
  cancellable : Bool
deriving DecidableEq, Repr

/-- `context.Background()`. -/
def Ctx.background : Ctx := ⟨false⟩

/-- The `Scanner` struct of `src/scanner.go` (lines 33-41). -/
structure Scanner where
  target : String
  startPort : Int
  endPort : Int
  threads : Int
  timeout : Int
  showProgress : Bool
  ctx : Ctx
deriving DecidableEq, Repr

/-- `ScannerOption` (`src/scanner.go` line 44): a function mutating the scanner. -/
def ScannerOption := Scanner → Scanner

/-- `WithTarget` (`src/scanner.go` lines 47-51). -/
def WithTarget (target : String) : ScannerOption :=
  fun s => { s with target := target }

/-- `WithPortRange` (`src/scanner.go` lines 54-59). -/
def WithPortRange (start «end» : Int) : ScannerOption :=
  fun s => { s with startPort := start, endPort := «end» }

/-- `WithThreads` (`src/scanner.go` lines 62-66). -/
def WithThreads (n : Int) : ScannerOption :=
  fun s => { s with threads := n }

/-- `WithTimeout` (`src/scanner.go` lines 69-73). -/
def WithTimeout (d : Int) : ScannerOption :=
  fun s => { s with timeout := d }

/-- `WithProgress` (`src/scanner.go` lines 76-80). -/
def WithProgress (show_ : Bool) : ScannerOption :=
  fun s => { s with showProgress := show_ }

/-- `WithContext` (`src/scanner.go` lines 83-87). -/
def WithContext (ctx : Ctx) : ScannerOption :=
  fun s => { s with ctx := ctx }

/-- Go `time.Second` in nanoseconds. -/
def timeSecond : Int := 1000000000

/-- The default scanner built at the top of `NewScanner`
(`src/scanner.go` lines 92-100). -/
def defaultScanner : Scanner :=
  { target := "localhost"
    startPort := 1
    endPort := 1024
    threads := 100
    timeout := timeSecond
    showProgress := true
    ctx := Ctx.background }

/-- `NewScanner` (`src/scanner.go` lines 90-108): start from the defaults and
apply the provided options in order. -/
def NewScanner (options : List ScannerOption) : Scanner :=
  options.foldl (fun s option => option s) defaultScanner

/-- The `contains` closure of `guessOS` (`src/unnamed/part_001` lines 513-520). -/
def containsPort (ports : List Int) (port : Int) : Bool :=
  match ports with
  | [] => false
  | p :: rest => if p = port then true else containsPort rest port

/-- `guessOS` (`src/unnamed/part_001` lines 510-553). -/
def guessOS (openPorts : List Int) : String :=
  let hasPort445 := containsPort openPorts 445
  let hasPort3389 := containsPort openPorts 3389
  let hasPort135 := containsPort openPorts 135
  let hasPort22 := containsPort openPorts 22
  let hasPort111 := containsPort openPorts 111
  let hasPort80 := containsPort openPorts 80
  let hasPort443 := containsPort openPorts 443
  if hasPort445 || hasPort3389 || hasPort135 then
    "Likely Windows"
  else if hasPort22 && hasPort111 then
    "Likely Linux/Unix"
  else if hasPort22 && !hasPort445 then
    "Likely Linux/Unix or Network Device"
  else if (hasPort80 || hasPort443) && !hasPort22 && !hasPort445 then
    "Likely Network Device or Appliance"
  else
    "Unknown OS"

/-! ### `isPortOpen` error classification (`src/scanner.go` lines 218-244) -/

/-- Observable attributes of the error `net.Dialer.DialContext` may return:
whether it type-asserts to `net.Error` with `Timeout() == true`, and whether
`errors.Is` matches `context.Canceled` resp. `context.DeadlineExceeded`. -/
structure DialErr where
  netTimeout : Bool
  canceled : Bool
  deadlineExceeded : Bool
deriving DecidableEq, Repr

/-- `isPortOpen` (`src/scanner.go` lines 218-244), as a function of the dial
outcome (`none` = the connection succeeded).  The returned pair is
`(open, err)`; on error the code returns the dial error itself. -/
def isPortOpen (dial : Option DialErr) : Bool × Option DialErr :=
  match dial with
  | some e =>
    if e.netTimeout then (false, none)
    else if e.canceled || e.deadlineExceeded then (false, some e)
    else (false, none)
  | none => (true, none)

/-! ### `grabBanner` post-processing (`src/unnamed/part_001` lines 439-448)

The raw response is `buffer[:n]`, a byte slice; we model byte strings as
`List Nat`.  Go's `len` and `banner[:100]` operate on bytes, so the 100/103
bounds here are byte counts (an upper bound on character counts). -/

/-- `strings.ReplaceAll(banner, "\r\n", " ")`: replace each non-overlapping
occurrence of the two-byte sequence CR LF (13 10) by a space (32),
left to right. -/
def replaceCRLF : List Nat → List Nat
  | [] => []
  | [b] => [b]
  | b1 :: b2 :: rest =>
    if b1 = 13 ∧ b2 = 10 then 32 :: replaceCRLF rest
    else b1 :: replaceCRLF (b2 :: rest)

/-- `strings.ReplaceAll(banner, "\n", " ")`: replace each LF (10) by a
space (32). -/
def replaceLF : List Nat → List Nat
  | [] => []
  | b :: rest => (if b = 10 then 32 else b) :: replaceLF rest

/-- The bytes of `"..."`. -/
def ellipsis : List Nat := [46, 46, 46]

/-- The banner clean-up at the end of `grabBanner`
(`src/unnamed/part_001` lines 439-448): normalize line breaks, then
truncate to 100 bytes appending `"..."`. -/
def cleanBanner (raw : List Nat) : List Nat :=
  let banner := replaceLF (replaceCRLF raw)
  if banner.length > 100 then banner.take 100 ++ ellipsis else banner

/-! ### The `Scan` pipeline (`src/scanner.go` lines 111-215)

`Scan` spawns `s.threads` workers, a feeder goroutine enumerating
`startPort..endPort` into a bounded `ports` channel, a completion goroutine
that closes `results` (and `done`) once the `sync.WaitGroup` of workers
drains, and collects `results` in the caller's goroutine.  We model it as a
small-step transition system; channel buffers are lists, goroutine program
points are explicit.  The network is abstracted by an oracle `Int → Bool`
saying which ports accept a connection; a probe whose `isPortOpen` call
returns a non-nil error makes the worker `continue`, which is observationally
the same as a closed port, so both are `oracle p = false`.
`displayProgress` (`src/unnamed/part_002`) sits in a `select` loop until it
receives the done signal, so the `progressDone <- true` handshake at the end
of `Scan` always completes and is omitted from the model. -/

/-- Everything `Scan` reads from the `Scanner` plus the abstracted network. -/
structure ScanCfg where
  startPort : Int
  endPort : Int
  threads : Int
  cancellable : Bool
  oracle : Int → Bool

/-- `portCount := s.endPort - s.startPort + 1` (`src/scanner.go` line 113). -/
def ScanCfg.portCount (c : ScanCfg) : Int := c.endPort - c.startPort + 1

/-- The shared capacity `min(portCount, 1000)` of the `ports` and `results`
channels (`src/scanner.go` lines 114-115). -/
def ScanCfg.cap (c : ScanCfg) : Int := min c.portCount 1000

/-- The projection of a `Scanner` that `Scan` acts on, together with a
network oracle. -/
def Scanner.toScanCfg (s : Scanner) (oracle : Int → Bool) : ScanCfg :=
  { startPort := s.startPort
    endPort := s.endPort
    threads := s.threads
    cancellable := s.ctx.cancellable
    oracle := oracle }

/-- Program point of one worker goroutine (`src/scanner.go` lines 130-163):
at the top of its select loop, holding an open port it must still push onto
`results`, or returned. -/
inductive WStatus where
  | idle
  | holding (port : Int)
  | exited
deriving DecidableEq, Repr

/-- The state of one in-flight `Scan` call. -/
structure ScanState where
  /-- whether `s.ctx.Done()` has fired -/
  cancelled : Bool
  /-- the feeder's loop variable `port` (`src/scanner.go` line 177) -/
  nextPort : Int
  /-- `close(ports)` has run (`src/scanner.go` line 175) -/
  feederClosed : Bool
  /-- buffer of the `ports` channel -/
  queue : List Int
  /-- the worker goroutines -/
  workers : List WStatus
  /-- buffer of the `results` channel -/
  resultsBuf : List Int
  /-- `close(results)` has run (`src/scanner.go` line 169) -/
  resultsClosed : Bool
  /-- `close(done)` has run (`src/scanner.go` line 170) -/
  doneClosed : Bool
  /-- the collector's `openPorts` slice (`src/scanner.go` line 188) -/
  collected : List Int
  /-- ports the collector has called `grabBanner` on (`src/scanner.go` line 192) -/
  banners : List Int
  /-- ports on which `isPortOpen` has been invoked (`src/scanner.go` line 145) -/
  probed : List Int
  /-- `Scan`'s return value `(openPorts, err != nil)` once it returns -/
  returned : Option (List Int × Bool)
deriving DecidableEq, Repr

/-- The state right after the channels are allocated and the goroutines
spawned: `for i := 0; i < s.threads; i++` spawns `max(threads, 0)` workers. -/
def initState (c : ScanCfg) : ScanState :=
  { cancelled := false
    nextPort := c.startPort
    feederClosed := false
    queue := []
    workers := List.replicate c.threads.toNat .idle
    resultsBuf := []
    resultsClosed := false
    doneClosed := false
    collected := []
    banners := []
    probed := []
    returned := none }

/-- One interleaving step of the `Scan` pipeline. -/
inductive Step (c : ScanCfg) : ScanState → ScanState → Prop where
  /-- the caller's context fires (only possible for a cancellable context) -/
  | cancel (s : ScanState) :
      c.cancellable = true → s.cancelled = false →
      Step c s { s with cancelled := true }
  /-- feeder sends the next port (`src/scanner.go` line 181); needs room in
  the bounded channel -/
  | feedSend (s : ScanState) :
      s.feederClosed = false → s.nextPort ≤ c.endPort →
      (s.queue.length : Int) < c.cap →
      Step c s { s with queue := s.queue ++ [s.nextPort],
                        nextPort := s.nextPort + 1 }
  /-- feeder returns, running `defer close(ports)` (lines 175, 177-179):
  either the range is exhausted or it saw the cancellation -/
  | feedClose (s : ScanState) :
      s.feederClosed = false →
      (c.endPort < s.nextPort ∨ s.cancelled = true) →
      Step c s { s with feederClosed := true }
  /-- idle worker takes the `<-s.ctx.Done()` branch (line 135) -/
  | workerCancelExit (s : ScanState) (i : Nat) :
      s.workers.get? i = some .idle → s.cancelled = true →
      Step c s { s with workers := s.workers.set i .exited }
  /-- idle worker receives a port and probes it (lines 138-160): open makes
  it hold the port for the results send; closed, or a probe error that the
  worker skips, returns it to the loop top -/
  | workerDraw (s : ScanState) (i : Nat) (p : Int) (rest : List Int) :
      s.workers.get? i = some .idle → s.queue = p :: rest →
      Step c s { s with queue := rest,
                        probed := s.probed ++ [p],
                        workers := s.workers.set i
                          (if c.oracle p then .holding p else .idle) }
  /-- idle worker receives from the closed, drained channel: `ok` is false
  (lines 138-142) -/
  | workerNoWork (s : ScanState) (i : Nat) :
      s.workers.get? i = some .idle → s.queue = [] → s.feederClosed = true →
      Step c s { s with workers := s.workers.set i .exited }
  /-- worker pushes an open port onto `results` (line 154) -/
  | workerPush (s : ScanState) (i : Nat) (p : Int) :
      s.workers.get? i = some (.holding p) →
      (s.resultsBuf.length : Int) < c.cap →
      Step c s { s with resultsBuf := s.resultsBuf ++ [p],
                        workers := s.workers.set i .idle }
  /-- worker abandons its result send on cancellation (lines 156-158) -/
  | workerPushCancel (s : ScanState) (i : Nat) (p : Int) :
      s.workers.get? i = some (.holding p) → s.cancelled = true →
      Step c s { s with workers := s.workers.set i .exited }
  /-- the completion goroutine passes `wg.Wait()` once every worker has
  exited, then closes `results` and `done` (lines 167-171) -/
  | barrier (s : ScanState) :
      (∀ w ∈ s.workers, w = WStatus.exited) → s.resultsClosed = false →
      Step c s { s with resultsClosed := true, doneClosed := true }
  /-- collector receives an open port, appends it to `openPorts` and calls
  `grabBanner` on it (lines 189-198) -/
  | collect (s : ScanState) (p : Int) (rest : List Int) :
      s.returned = none → s.resultsBuf = p :: rest →
      Step c s { s with resultsBuf := rest,
                        collected := s.collected ++ [p],
                        banners := s.banners ++ [p] }
  /-- the collector's range loop ends on the closed, drained `results`,
  `<-done` succeeds, and the final select returns `(openPorts, err)` with
  `err` non-nil exactly if the context is done (lines 200-214) -/
  | scanReturn (s : ScanState) :
      s.returned = none → s.resultsBuf = [] → s.resultsClosed = true →
      s.doneClosed = true →
      Step c s { s with returned := some (s.collected, s.cancelled) }

/-- Reachability of one pipeline state from another. -/
def Reaches (c : ScanCfg) : ScanState → ScanState → Prop :=
  Relation.ReflTransGen (Step c)

/-! ### Bookkeeping for the scheduling invariant -/

/-- The integers `a, a+1, ..., b-1`, the ports the feeder's loop covers. -/
def intRange (a b : Int) : List Int :=
  (List.range (b - a).toNat).map (fun (k : Nat) => a + (k : Int))

lemma mem_intRange {a b p : Int} : p ∈ intRange a b ↔ a ≤ p ∧ p < b := by
  simp only [intRange, List.mem_map, List.mem_range]
  constructor
  · rintro ⟨k, hk, rfl⟩
    omega
  · rintro ⟨h1, h2⟩
    exact ⟨(p - a).toNat, by omega, by omega⟩

lemma intRange_nodup (a b : Int) : (intRange a b).Nodup := by
  have hinj : Function.Injective (fun (k : Nat) => a + (k : Int)) := by
    intro x y h
    have h' : a + (x : Int) = a + (y : Int) := h
    omega
  exact (List.nodup_range _).map hinj

lemma intRange_length (a b : Int) : (intRange a b).length = (b - a).toNat := by
  rw [intRange, List.length_map, List.length_range]

lemma intRange_succ_right {a b : Int} (h : a ≤ b) :
    intRange a (b + 1) = intRange a b ++ [b] := by
  have h1 : (b + 1 - a).toNat = (b - a).toNat + 1 := by omega
  have h2 : a + ((b - a).toNat : Int) = b := by omega
  rw [intRange, intRange, h1, List.range_succ, List.map_append,
    List.map_singleton, h2]

/-- The port a worker currently holds for the results send, if any. -/
def portOf : WStatus → Option Int
  | .holding p => some p
  | _ => none

/-- All ports currently held by workers awaiting their results send. -/
def heldPorts (ws : List WStatus) : List Int := ws.filterMap portOf

lemma heldPorts_replicate_idle (n : Nat) :
    heldPorts (List.replicate n .idle) = [] := by
  induction n with
  | zero => rfl
  | succ m ih =>
    simp only [heldPorts] at ih
    simp [heldPorts, List.replicate, List.filterMap_cons, portOf, ih]

lemma heldPorts_set_ms (ws : List WStatus) (i : Nat) (w v : WStatus)
    (h : ws.get? i = some w) :
    (heldPorts (ws.set i v) : Multiset Int) + ↑(portOf w).toList
      = (heldPorts ws : Multiset Int) + ↑(portOf v).toList := by
  induction ws generalizing i with
  | nil => simp at h
  | cons x t ih =>
    cases i with
    | zero =>
      have hx : x = w := by simpa using h
      subst hx
      cases x <;> cases v <;>
        simp [heldPorts, List.filterMap_cons, portOf, ← Multiset.cons_coe,
          ← Multiset.singleton_add] <;> abel
    | succ j =>
      have ht := ih j (by simpa using h)
      simp only [heldPorts] at ht
      cases x with
      | idle =>
        simp only [List.set, heldPorts]
        rw [List.filterMap_cons_none rfl, List.filterMap_cons_none rfl]
        exact ht
      | exited =>
        simp only [List.set, heldPorts]
        rw [List.filterMap_cons_none rfl, List.filterMap_cons_none rfl]
        exact ht
      | holding q =>
        simp only [List.set, heldPorts]
        rw [List.filterMap_cons_some
              (show portOf (WStatus.holding q) = some q from rfl),
            List.filterMap_cons_some
              (show portOf (WStatus.holding q) = some q from rfl)]
        simp only [← Multiset.cons_coe, ← Multiset.singleton_add, add_assoc]
        rw [ht]

/-- Multiset view of the ports moving through the pipeline: collected by the
caller, buffered in `results`, held by a worker, or buffered in `ports`. -/
def livePorts (s : ScanState) : Multiset Int :=
  (s.collected : Multiset Int) + (s.resultsBuf : Multiset Int)
    + (heldPorts s.workers : Multiset Int) + (s.queue : Multiset Int)

/-- Invariant of every reachable pipeline state: the feeder has advanced at
most to `endPort + 1`, every port in flight was fed exactly once (the in-flight
multiset embeds into the already-fed range), and a produced return value is
exactly the collected list. -/
structure ScanInv (c : ScanCfg) (s : ScanState) : Prop where
  start_le : c.startPort ≤ s.nextPort
  next_le : s.nextPort ≤ c.endPort + 1 ∨ s.nextPort ≤ c.startPort
  live_le : livePorts s ≤ ↑(intRange c.startPort s.nextPort)
  ret_eq : ∀ ports e, s.returned = some (ports, e) → ports = s.collected

lemma scanInv_init (c : ScanCfg) : ScanInv c (initState c) where
  start_le := le_refl _
  next_le := Or.inr (le_refl _)
  live_le := by
    simp [livePorts, initState, heldPorts_replicate_idle]
  ret_eq := by simp [initState]

lemma coe_append_ms (l1 l2 : List Int) :
    ((l1 ++ l2 : List Int) : Multiset Int) = ↑l1 + ↑l2 :=
  (Multiset.coe_add l1 l2).symm

lemma coe_cons_ms (p : Int) (l : List Int) :
    ((p :: l : List Int) : Multiset Int) = {p} + ↑l := by
  rw [Multiset.singleton_add, Multiset.cons_coe]

lemma scanInv_step {c : ScanCfg} {s s' : ScanState}
    (hstep : Step c s s') (hinv : ScanInv c s) : ScanInv c s' := by
  obtain ⟨h1, h2, h3, h4⟩ := hinv
  cases hstep with
  | cancel hcc hnc =>
    exact ⟨h1, h2, h3, h4⟩
  | feedSend hf hle hcap =>
    refine ⟨by dsimp only; omega, by dsimp only; omega, ?_, h4⟩
    simp only [livePorts] at h3 ⊢
    rw [intRange_succ_right h1, coe_append_ms, coe_append_ms]
    simp only [← add_assoc]
    exact add_le_add_right h3 _
  | feedClose hf hc =>
    exact ⟨h1, h2, h3, h4⟩
  | workerCancelExit i hw hc =>
    have hh := heldPorts_set_ms s.workers i .idle .exited hw
    simp only [portOf, Option.toList, Multiset.coe_nil, add_zero] at hh
    refine ⟨h1, h2, ?_, h4⟩
    simp only [livePorts] at h3 ⊢
    rw [hh]
    exact h3
  | workerDraw i p rest hw hq =>
    refine ⟨h1, h2, ?_, h4⟩
    simp only [livePorts] at h3 ⊢
    rw [hq, coe_cons_ms] at h3
    cases hor : c.oracle p with
    | true =>
      have hh := heldPorts_set_ms s.workers i .idle (.holding p) hw
      simp only [portOf, Option.toList, Multiset.coe_nil, add_zero,
        Multiset.coe_singleton] at hh
      rw [if_pos rfl]
      simp only [hh]
      refine le_trans (le_of_eq ?_) h3
      abel
    | false =>
      have hh := heldPorts_set_ms s.workers i .idle .idle hw
      simp only [portOf, Option.toList, Multiset.coe_nil, add_zero] at hh
      rw [if_neg (by decide)]
      simp only [hh]
      refine le_trans ?_ h3
      exact add_le_add_left (self_le_add_left _ _) _
  | workerNoWork i hw hq hf =>
    have hh := heldPorts_set_ms s.workers i .idle .exited hw
    simp only [portOf, Option.toList, Multiset.coe_nil, add_zero] at hh
    refine ⟨h1, h2, ?_, h4⟩
    simp only [livePorts] at h3 ⊢
    rw [hh]
    exact h3
  | workerPush i p hw hcap =>
    have hh := heldPorts_set_ms s.workers i (.holding p) .idle hw
    simp only [portOf, Option.toList, Multiset.coe_nil, add_zero,
      Multiset.coe_singleton] at hh
    refine ⟨h1, h2, ?_, h4⟩
    simp only [livePorts] at h3 ⊢
    rw [coe_append_ms]
    refine le_trans (le_of_eq ?_) h3
    rw [← hh]
    simp only [Multiset.coe_singleton]
    abel
  | workerPushCancel i p hw hc =>
    have hh := heldPorts_set_ms s.workers i (.holding p) .exited hw
    simp only [portOf, Option.toList, Multiset.coe_nil, add_zero,
      Multiset.coe_singleton] at hh
    refine ⟨h1, h2, ?_, h4⟩
    simp only [livePorts] at h3 ⊢
    refine le_trans ?_ h3
    rw [← hh]
    exact add_le_add_right (add_le_add_left (self_le_add_right _ _) _) _
  | barrier hall hrc =>
    exact ⟨h1, h2, h3, h4⟩
  | collect p rest hret hbuf =>
    refine ⟨h1, h2, ?_, ?_⟩
    · simp only [livePorts] at h3 ⊢
      rw [hbuf, coe_cons_ms] at h3
      rw [coe_append_ms]
      refine le_trans (le_of_eq ?_) h3
      simp only [Multiset.coe_singleton]
      abel
    · intro ports e hpe
      simp only [hret] at hpe
      exact Option.noConfusion hpe
  | scanReturn hret hbuf hrc hdc =>
    refine ⟨h1, h2, h3, ?_⟩
    intro ports e hpe
    simp only [Option.some.injEq, Prod.mk.injEq] at hpe
    exact hpe.1.symm

lemma scanInv_reaches {c : ScanCfg} {s : ScanState}
    (h : Reaches c (initState c) s) : ScanInv c s := by
  induction h with
  | refl => exact scanInv_init c
  | tail _ hstep ih => exact scanInv_step hstep ih

/-- The collector calls `grabBanner` on exactly the ports it appends to
`openPorts` (`src/scanner.go` lines 189-198), so in every reachable state the
two lists agree. -/
lemma banners_eq_collected_reaches {c : ScanCfg} {s : ScanState}
    (h : Reaches c (initState c) s) : s.banners = s.collected := by
  induction h with
  | refl => rfl
  | tail _ hstep ih => cases hstep <;> simp_all

lemma reaches_of_eq {c : ScanCfg} {a b : ScanState} (h : a = b) :
    Reaches c a b := h ▸ Relation.ReflTransGen.refl

/-! ### A complete sequential execution of the pipeline

With one worker there is a schedule that feeds, probes and collects one port
at a time; it shows `Scan` running to completion on any range, for any
timeout, with no validation step anywhere. -/

/-- The pipeline state after the single worker has processed the first `k`
ports of the range under the one-at-a-time schedule. -/
def seqState (c : ScanCfg) (k : Nat) : ScanState :=
  { cancelled := false
    nextPort := c.startPort + (k : Int)
    feederClosed := false
    queue := []
    workers := [.idle]
    resultsBuf := []
    resultsClosed := false
    doneClosed := false
    collected := (intRange c.startPort (c.startPort + (k : Int))).filter c.oracle
    banners := (intRange c.startPort (c.startPort + (k : Int))).filter c.oracle
    probed := intRange c.startPort (c.startPort + (k : Int))
    returned := none }

lemma intRange_self (a : Int) : intRange a a = [] := by
  simp [intRange]

lemma seqState_zero {c : ScanCfg} (hth : c.threads = 1) :
    seqState c 0 = initState c := by
  simp [seqState, initState, hth, intRange_self]

lemma seq_cap_pos {c : ScanCfg} {k : Nat}
    (hk : c.startPort + (k : Int) ≤ c.endPort) : (0 : Int) < c.cap := by
  simp only [ScanCfg.cap, ScanCfg.portCount]
  omega

lemma seqStep {c : ScanCfg} {k : Nat}
    (hk : c.startPort + (k : Int) ≤ c.endPort) :
    Reaches c (seqState c k) (seqState c (k + 1)) := by
  have hle : c.startPort ≤ c.startPort + (k : Int) := by omega
  have hnext : c.startPort + ((k : Nat) + 1 : Nat) =
      c.startPort + (k : Int) + 1 := by push_cast; ring
  refine Relation.ReflTransGen.head
    (Step.feedSend (seqState c k) rfl hk (by simpa using seq_cap_pos hk)) ?_
  refine Relation.ReflTransGen.head
    (Step.workerDraw _ 0 (c.startPort + (k : Int)) [] rfl rfl) ?_
  cases hor : c.oracle (c.startPort + (k : Int)) with
  | false =>
    refine reaches_of_eq ?_
    simp only [seqState, hor, if_neg (by decide : ¬(false = true))]
    simp [List.set, hnext, intRange_succ_right hle, List.filter_append,
      List.filter_cons, hor, ← add_assoc]
  | true =>
    refine Relation.ReflTransGen.head
      (Step.workerPush _ 0 (c.startPort + (k : Int))
        (by simp [List.set, hor]) (by simpa using seq_cap_pos hk)) ?_
    refine Relation.ReflTransGen.head
      (Step.collect _ (c.startPort + (k : Int)) [] rfl rfl) ?_
    refine reaches_of_eq ?_
    simp only [seqState]
    simp [List.set, hnext, intRange_succ_right hle, List.filter_append,
      List.filter_cons, hor, ← add_assoc]

lemma seq_reaches_k {c : ScanCfg} (hth : c.threads = 1) :
    ∀ k : Nat, (k : Int) ≤ c.portCount →
      Reaches c (initState c) (seqState c k) := by
  intro k
  induction k with
  | zero => exact fun _ => reaches_of_eq (seqState_zero hth).symm
  | succ m ih =>
    intro hm
    have hm' : (m : Int) ≤ c.portCount := by push_cast at hm ⊢; omega
    have hk : c.startPort + (m : Int) ≤ c.endPort := by
      simp only [ScanCfg.portCount] at hm
      push_cast at hm
      omega
    exact (ih hm').trans (seqStep hk)

/-- The terminal state of the one-worker schedule: every port probed, the
open ones collected, `Scan` returned `(openPorts, nil)`. -/
def seqFinal (c : ScanCfg) : ScanState :=
  { cancelled := false
    nextPort := c.endPort + 1
    feederClosed := true
    queue := []
    workers := [.exited]
    resultsBuf := []
    resultsClosed := true
    doneClosed := true
    collected := (intRange c.startPort (c.endPort + 1)).filter c.oracle
    banners := (intRange c.startPort (c.endPort + 1)).filter c.oracle
    probed := intRange c.startPort (c.endPort + 1)
    returned := some ((intRange c.startPort (c.endPort + 1)).filter c.oracle,
      false) }

lemma seq_reaches_final {c : ScanCfg} (hth : c.threads = 1)
    (hse : c.startPort ≤ c.endPort) :
    Reaches c (initState c) (seqFinal c) := by
  have hK : ((c.endPort + 1 - c.startPort).toNat : Int) ≤ c.portCount := by
    simp only [ScanCfg.portCount]
    omega
  have h1 := seq_reaches_k hth (c.endPort + 1 - c.startPort).toNat hK
  have hKint : c.startPort + ((c.endPort + 1 - c.startPort).toNat : Int)
      = c.endPort + 1 := by omega
  refine h1.trans ?_
  refine Relation.ReflTransGen.head
    (Step.feedClose _ rfl (Or.inl (by simp only [seqState]; omega))) ?_
  refine Relation.ReflTransGen.head (Step.workerNoWork _ 0 rfl rfl rfl) ?_
  refine Relation.ReflTransGen.head
    (Step.barrier _ (by intro w hw; simpa [List.set] using hw) rfl) ?_
  refine Relation.ReflTransGen.head (Step.scanReturn _ rfl rfl rfl rfl) ?_
  refine reaches_of_eq ?_
  simp only [seqState, seqFinal, List.set, hKint]

lemma containsPort_iff (l : List Int) (p : Int) :
    containsPort l p = true ↔ p ∈ l := by
  induction l with
  | nil => simp [containsPort]
  | cons x t ih =>
    by_cases hx : x = p
    · simp [containsPort, hx]
    · simp only [containsPort, if_neg hx, List.mem_cons, ih]
      constructor
      · exact Or.inr
      · rintro (rfl | h)
        · exact absurd rfl hx
        · exact h

lemma not_mem_replaceLF (l : List Nat) : 10 ∉ replaceLF l := by
  induction l with
  | nil => simp [replaceLF]
  | cons b t ih =>
    simp only [replaceLF, List.mem_cons]
    rintro (h | h)
    · by_cases hb : b = 10
      · simp [hb] at h
      · simp [hb] at h
        omega
    · exact ih h

/-- C10: `NewScanner` with no options gives target `"localhost"`, port range
1-1024, 100 threads, a 1 s (`1000000000` ns) timeout, progress on, and the
never-cancelled background context; each `With*` option rewrites exactly its
own field(s) of the scanner it is given; and since `NewScanner` folds the
option list left to right, the last option applied wins. -/
theorem newScanner_defaults_and_options :
    (NewScanner [] =
      { target := "localhost", startPort := 1, endPort := 1024,
        threads := 100, timeout := 1000000000, showProgress := true,
        ctx := Ctx.background }) ∧
    Ctx.background.cancellable = false ∧
    (∀ s t, WithTarget t s = { s with target := t }) ∧
    (∀ s a b, WithPortRange a b s = { s with startPort := a, endPort := b }) ∧
    (∀ s n, WithThreads n s = { s with threads := n }) ∧
    (∀ s d, WithTimeout d s = { s with timeout := d }) ∧
    (∀ s b, WithProgress b s = { s with showProgress := b }) ∧
    (∀ s c, WithContext c s = { s with ctx := c }) ∧
    (∀ (opts : List ScannerOption) (o : ScannerOption),
      NewScanner (opts ++ [o]) = o (NewScanner opts)) := by
  refine ⟨rfl, rfl, fun _ _ => rfl, fun _ _ _ => rfl, fun _ _ => rfl,
    fun _ _ => rfl, fun _ _ => rfl, fun _ _ => rfl, fun opts o => ?_⟩
  simp [NewScanner, List.foldl_append]

/-- C4: `isPortOpen` returns `(false, nil)` on a connect timeout and on any
ordinary connection failure (not cancellation-related), and `(false, err)`
with a non-nil error when the failure comes from the cancellation signal
(`context.Canceled` / `context.DeadlineExceeded`, not reported as a net
timeout), which is distinguishable from the ordinary closed-port result. -/
theorem isPortOpen_failure_classification (e : DialErr) :
    (e.canceled = false → e.deadlineExceeded = false →
      isPortOpen (some e) = (false, none)) ∧
    ((e.canceled = true ∨ e.deadlineExceeded = true) → e.netTimeout = false →
      isPortOpen (some e) = (false, some e)) := by
  obtain ⟨t, cc, d⟩ := e
  cases t <;> cases cc <;> cases d <;> exact ⟨by decide, by decide⟩

theorem isPortOpen_failure_classification_witness :
    isPortOpen (some ⟨false, true, false⟩)
      = (false, some ⟨false, true, false⟩) :=
  (isPortOpen_failure_classification ⟨false, true, false⟩).2 (Or.inl rfl) rfl

/-- C8: `guessOS` answers `"Likely Windows"` whenever 445, 3389 or 135 is
among the open ports, whatever else is present (the Windows branch is checked
first), and answers `"Unknown OS"` exactly when none of 445, 3389, 135, 22,
80, 443 is present. -/
theorem guessOS_windows_priority_and_unknown :
    (∀ ports : List Int, (445 ∈ ports ∨ 3389 ∈ ports ∨ 135 ∈ ports) →
      guessOS ports = "Likely Windows") ∧
    (∀ ports : List Int, guessOS ports = "Unknown OS" ↔
      (445 ∉ ports ∧ 3389 ∉ ports ∧ 135 ∉ ports ∧ 22 ∉ ports ∧
        80 ∉ ports ∧ 443 ∉ ports)) := by
  constructor
  · intro ports h
    simp only [guessOS]
    rcases h with h | h | h <;>
      simp [(containsPort_iff ports _).2 h]
  · intro ports
    simp only [guessOS, ← containsPort_iff]
    cases h445 : containsPort ports 445 <;>
      cases h3389 : containsPort ports 3389 <;>
      cases h135 : containsPort ports 135 <;>
      cases h22 : containsPort ports 22 <;>
      cases h111 : containsPort ports 111 <;>
      cases h80 : containsPort ports 80 <;>
      cases h443 : containsPort ports 443 <;>
      simp

theorem guessOS_windows_priority_and_unknown_witness :
    guessOS [22, 111, 445] = "Likely Windows" :=
  guessOS_windows_priority_and_unknown.1 [22, 111, 445]
    (Or.inl (by decide))

/-- C7: after `grabBanner`'s clean-up of a raw response, the banner contains
no LF byte, is at most 103 bytes long, is left unchanged when the normalized
text fits in 100 bytes, and otherwise is the first 100 bytes followed by
`"..."` (making exactly 103 bytes). -/
theorem grabBanner_postprocessing (raw : List Nat) :
    10 ∉ cleanBanner raw ∧
    (cleanBanner raw).length ≤ 103 ∧
    ((replaceLF (replaceCRLF raw)).length ≤ 100 →
      cleanBanner raw = replaceLF (replaceCRLF raw)) ∧
    (100 < (replaceLF (replaceCRLF raw)).length →
      cleanBanner raw = (replaceLF (replaceCRLF raw)).take 100 ++ ellipsis ∧
        (cleanBanner raw).length = 103) := by
  by_cases hlen : 100 < (replaceLF (replaceCRLF raw)).length
  · have hc : cleanBanner raw
        = (replaceLF (replaceCRLF raw)).take 100 ++ ellipsis := by
      simp [cleanBanner, hlen]
    refine ⟨?_, ?_, by omega, fun _ => ⟨hc, ?_⟩⟩
    · rw [hc]
      intro hmem
      rcases List.mem_append.1 hmem with h | h
      · exact not_mem_replaceLF _ (List.take_subset _ _ h)
      · simp [ellipsis] at h
    · rw [hc]
      simp only [List.length_append, List.length_take, ellipsis,
        List.length_cons, List.length_nil]
      omega
    · rw [hc]
      simp only [List.length_append, List.length_take, ellipsis,
        List.length_cons, List.length_nil]
      omega
  · have hc : cleanBanner raw = replaceLF (replaceCRLF raw) := by
      simp only [cleanBanner]
      rw [if_neg (by omega)]
    refine ⟨?_, ?_, fun _ => hc, by omega⟩
    · rw [hc]; exact not_mem_replaceLF _
    · rw [hc]; omega

theorem grabBanner_postprocessing_witness :
    cleanBanner [83, 72, 13, 10] = replaceLF (replaceCRLF [83, 72, 13, 10]) :=
  (grabBanner_postprocessing [83, 72, 13, 10]).2.2.1 (by decide)

/-- A small fixed configuration used to instantiate theorems about the
pipeline on concrete runs. -/
def testCfg : ScanCfg :=
  { startPort := 1, endPort := 1, threads := 1, cancellable := false,
    oracle := fun _ => false }

/-- A pipeline state about to execute `Scan`'s final return. -/
def c5state : ScanState :=
  { cancelled := false, nextPort := 4, feederClosed := true, queue := [],
    workers := [], resultsBuf := [], resultsClosed := true,
    doneClosed := true, collected := [7], banners := [7], probed := [7, 9],
    returned := none }

/-- C5: whenever `Scan` performs its return step, the value returned is
exactly the open-port list accumulated so far, and the returned error is
non-nil if and only if the cancellation signal is set at that moment; no
step returns anything else (there is no hard-failure outcome). -/
theorem scan_return_collected_iff_cancelled (c : ScanCfg) (s s' : ScanState)
    (hstep : Step c s s') (hpre : s.returned = none) (ports : List Int)
    (e : Bool) (hret : s'.returned = some (ports, e)) :
    ports = s.collected ∧ (e = true ↔ s.cancelled = true) := by
  cases hstep
  case scanReturn h1 h2 h3 h4 =>
    have hret' : some ((s.collected, s.cancelled) : List Int × Bool)
        = some (ports, e) := hret
    injection hret' with hh
    cases hh
    exact ⟨rfl, Iff.rfl⟩
  all_goals exact absurd hret (by simp [hpre])

theorem scan_return_collected_iff_cancelled_witness :
    ([7] : List Int) = c5state.collected ∧
      (false = true ↔ c5state.cancelled = true) :=
  scan_return_collected_iff_cancelled testCfg c5state _
    (Step.scanReturn c5state rfl rfl rfl rfl) rfl [7] false rfl

/-- C6: over a valid port range, any value `Scan` returns is a duplicate-free
list of ports from the range, of size at most `endPort - startPort + 1`:
each port is fed once by the feeder and handed to one worker once. -/
theorem scan_result_nodup_and_bounded (c : ScanCfg)
    (_hv1 : 1 ≤ c.startPort) (hv2 : c.startPort ≤ c.endPort)
    (_hv3 : c.endPort ≤ 65535) {s : ScanState}
    (hr : Reaches c (initState c) s) (ports : List Int) (e : Bool)
    (hret : s.returned = some (ports, e)) :
    ports.Nodup ∧ (ports.length : Int) ≤ c.endPort - c.startPort + 1 ∧
      ∀ p ∈ ports, c.startPort ≤ p ∧ p ≤ c.endPort := by
  obtain ⟨hst, hnl, hlive, hreq⟩ := scanInv_reaches hr
  have hpc : ports = s.collected := hreq ports e hret
  subst hpc
  have hcoll : (s.collected : Multiset Int) ≤ livePorts s := by
    simp only [livePorts]
    exact le_trans (le_trans (self_le_add_right _ _) (self_le_add_right _ _))
      (self_le_add_right _ _)
  have hsub : (s.collected : Multiset Int)
      ≤ ↑(intRange c.startPort s.nextPort) := le_trans hcoll hlive
  have hnodup : s.collected.Nodup :=
    Multiset.coe_nodup.1
      (Multiset.nodup_of_le hsub (Multiset.coe_nodup.2 (intRange_nodup _ _)))
  have hmem : ∀ p ∈ s.collected, c.startPort ≤ p ∧ p ≤ c.endPort := by
    intro p hp
    have hp' : p ∈ intRange c.startPort s.nextPort := by
      have hin : p ∈ (↑(intRange c.startPort s.nextPort) : Multiset Int) :=
        Multiset.mem_of_le hsub (by simpa using hp)
      simpa using hin
    have hb := mem_intRange.1 hp'
    rcases hnl with hA | hB <;> omega
  refine ⟨hnodup, ?_, hmem⟩
  have hcard := Multiset.card_le_card hsub
  simp only [Multiset.coe_card] at hcard
  rw [intRange_length] at hcard
  rcases hnl with hA | hB <;> omega

/-- The configuration of the concrete run witnessing the C6 bound. -/
def c6cfg : ScanCfg :=
  { startPort := 1, endPort := 3, threads := 1, cancellable := false,
    oracle := fun p => p == 2 }

theorem scan_result_nodup_and_bounded_witness :
    ([2] : List Int).Nodup ∧
      (([2] : List Int).length : Int) ≤ c6cfg.endPort - c6cfg.startPort + 1 ∧
      ∀ p ∈ ([2] : List Int), c6cfg.startPort ≤ p ∧ p ≤ c6cfg.endPort :=
  scan_result_nodup_and_bounded c6cfg (by decide) (by decide) (by decide)
    (seq_reaches_final rfl (by decide)) [2] false (by decide)

/-- The configuration of the C1 run: zero workers, a range whose 2000 ports
exceed the queue bound of 1000. -/
def c1cfg : ScanCfg :=
  { startPort := 1, endPort := 2000, threads := 0, cancellable := false,
    oracle := fun _ => false }

/-- C1 counterexample: with a concurrency limit of 0 (and a port count above
the queue bound), `Scan` does reach its return: the `WaitGroup` of zero
workers passes immediately, `results` and `done` close, and `Scan` returns
`([], nil)` — it does not stay blocked forever. -/
theorem scan_zero_threads_counterexample :
    Reaches c1cfg (initState c1cfg)
      { initState c1cfg with
          resultsClosed := true
          doneClosed := true
          returned := some ([], false) } ∧
    ({ initState c1cfg with
        resultsClosed := true
        doneClosed := true
        returned := some ([], false) } : ScanState).returned
      = some ([], false) := by
  refine ⟨?_, rfl⟩
  refine Relation.ReflTransGen.head (Step.barrier _ ?_ rfl) ?_
  · intro w hw
    simp [initState, c1cfg] at hw
  · refine Relation.ReflTransGen.head (Step.scanReturn _ rfl rfl rfl rfl) ?_
    exact reaches_of_eq rfl

/-- C1 as amended: a non-positive concurrency limit spawns no workers, so the
completion barrier passes at once, the results channel closes, and `Scan`
returns the empty result with a nil error — no deadlock of `Scan` itself
(only the feeder goroutine can be left blocked when the range exceeds the
queue bound, which does not keep `Scan` from returning). -/
theorem scan_nonpositive_threads_returns (c : ScanCfg) (h : c.threads ≤ 0) :
    (initState c).workers = [] ∧
    Reaches c (initState c)
      { initState c with
          resultsClosed := true
          doneClosed := true
          returned := some ([], false) } := by
  have hz : c.threads.toNat = 0 := by omega
  constructor
  · simp [initState, hz]
  · refine Relation.ReflTransGen.head (Step.barrier _ ?_ rfl) ?_
    · intro w hw
      simp [initState, hz] at hw
    · refine Relation.ReflTransGen.head (Step.scanReturn _ rfl rfl rfl rfl) ?_
      exact reaches_of_eq rfl

theorem scan_nonpositive_threads_returns_witness :
    (initState c1cfg).workers = [] ∧
    Reaches c1cfg (initState c1cfg)
      { initState c1cfg with
          resultsClosed := true
          doneClosed := true
          returned := some ([], false) } :=
  scan_nonpositive_threads_returns c1cfg (by decide)

/-- The configuration of the C3 run: one port, open. -/
def c3cfg : ScanCfg :=
  { startPort := 1, endPort := 1, threads := 1, cancellable := false,
    oracle := fun _ => true }

/-- Mid-scan state of the C3 run: port 1 collected and its banner grabbed by
the engine, `Scan` not yet returned. -/
def c3mid : ScanState :=
  { cancelled := false, nextPort := 2, feederClosed := true, queue := [],
    workers := [.idle], resultsBuf := [], resultsClosed := false,
    doneClosed := false, collected := [1], banners := [1], probed := [1],
    returned := none }

/-- C3 counterexample: the engine itself reaches a state, before `Scan`
returns, in which it has already invoked `grabBanner` on an open port — the
collector loop inside `Scan` performs banner retrieval during the scan. -/
theorem scan_banner_during_scan_counterexample :
    Reaches c3cfg (initState c3cfg) c3mid ∧ c3mid.banners = [1] ∧
      c3mid.returned = none := by
  refine ⟨?_, rfl, rfl⟩
  refine Relation.ReflTransGen.head
    (Step.feedSend (initState c3cfg) rfl (by decide) (by decide)) ?_
  refine Relation.ReflTransGen.head
    (Step.feedClose _ rfl (Or.inl (by decide))) ?_
  refine Relation.ReflTransGen.head
    (Step.workerDraw _ 0 1 [] (by decide) (by decide)) ?_
  refine Relation.ReflTransGen.head
    (Step.workerPush _ 0 1 (by decide) (by decide)) ?_
  refine Relation.ReflTransGen.head (Step.collect _ 1 [] rfl (by decide)) ?_
  exact reaches_of_eq (by decide)

/-- C3 as amended: `Scan` itself calls `grabBanner` during the scan, once for
each open port as the collector receives it; the scan's return value is a
bare port list carrying no banners, so any banner attached to a result is
attached by the caller afterwards.  Formally: in every reachable state the
ports the engine has banner-probed are exactly the collected open ports. -/
theorem scan_banners_track_collected {c : ScanCfg} {s : ScanState}
    (h : Reaches c (initState c) s) : s.banners = s.collected :=
  banners_eq_collected_reaches h

theorem scan_banners_track_collected_witness :
    (seqFinal c3cfg).banners = (seqFinal c3cfg).collected :=
  scan_banners_track_collected (seq_reaches_final rfl (by decide))

/-- A scanner built with an invalid configuration: port range 0-0 (port 0 is
outside 1-65535) and a negative timeout. -/
def c2scanner : Scanner :=
  NewScanner [WithPortRange 0 0, WithThreads 1, WithTimeout (-1),
    WithProgress false]

/-- The C2 run: the invalid scanner against a network with nothing open. -/
def c2cfg : ScanCfg := c2scanner.toScanCfg (fun _ => false)

/-- C2 counterexample: with a negative timeout and the out-of-range port 0,
`Scan` performs no rejection at all — it probes port 0 and returns normally
with `([], nil)`. -/
theorem scan_invalid_config_not_rejected_counterexample :
    c2scanner.timeout = -1 ∧ c2scanner.startPort = 0 ∧
    Reaches c2cfg (initState c2cfg) (seqFinal c2cfg) ∧
    (seqFinal c2cfg).probed = [0] ∧
    (seqFinal c2cfg).returned = some ([], false) := by
  refine ⟨rfl, rfl, seq_reaches_final rfl (by decide), ?_, ?_⟩ <;> decide

/-- A scanner whose port range and timeout come straight from the caller,
with one worker, as `Scan` receives it. -/
def invalidScanner (start endP d : Int) : Scanner :=
  NewScanner [WithPortRange start endP, WithThreads 1, WithTimeout d]

/-- C2 as amended: the engine validates nothing.  For any port range (valid
bounds or not, as long as it is non-empty) and any non-positive timeout, the
scan proceeds: every port of the range is probed and `Scan` returns the
probed-open subset with a nil error.  (Port-range checks exist only in the
CLI layer of the program, before the engine is called; a non-positive
timeout is rejected nowhere.) -/
theorem scan_accepts_invalid_config (start endP d : Int)
    (oracle : Int → Bool) (hrange : start ≤ endP) (_hd : d ≤ 0) :
    (invalidScanner start endP d).timeout = d ∧
    Reaches ((invalidScanner start endP d).toScanCfg oracle)
      (initState ((invalidScanner start endP d).toScanCfg oracle))
      (seqFinal ((invalidScanner start endP d).toScanCfg oracle)) ∧
    (seqFinal ((invalidScanner start endP d).toScanCfg oracle)).probed
      = intRange start (endP + 1) ∧
    (seqFinal ((invalidScanner start endP d).toScanCfg oracle)).returned
      = some ((intRange start (endP + 1)).filter oracle, false) :=
  ⟨rfl, seq_reaches_final rfl hrange, rfl, rfl⟩

theorem scan_accepts_invalid_config_witness :
    (invalidScanner 0 0 (-1)).timeout = -1 ∧
    Reaches ((invalidScanner 0 0 (-1)).toScanCfg (fun _ => false))
      (initState ((invalidScanner 0 0 (-1)).toScanCfg (fun _ => false)))
      (seqFinal ((invalidScanner 0 0 (-1)).toScanCfg (fun _ => false))) ∧
    (seqFinal ((invalidScanner 0 0 (-1)).toScanCfg
        (fun _ => false))).probed = intRange 0 1 ∧
    (seqFinal ((invalidScanner 0 0 (-1)).toScanCfg
        (fun _ => false))).returned
      = some ((intRange 0 1).filter (fun _ => false), false) :=
  scan_accepts_invalid_config 0 0 (-1) (fun _ => false) (by decide)
    (by decide)

/-! ### `expandIPRange` (`src/unnamed/part_001` lines 455-507)

Lean's own `String.splitOn` and `String.trim` do not reduce definitionally,
so Go's `strings.Split` (on the one-character separators used here) and
`strings.TrimSpace` are embedded as structural recursion over the character
list of the string. -/

/-- `strings.Split` with a one-character separator: split at every
occurrence, keeping empty fields. -/
def splitOnChar (sep : Char) : List Char → List (List Char)
  | [] => [[]]
  | ch :: rest =>
    if ch = sep then [] :: splitOnChar sep rest
    else
      match splitOnChar sep rest with
      | [] => [[ch]]
      | g :: gs => (ch :: g) :: gs

/-- `strings.Split(s, sep)` for a one-character `sep`. -/
def splitString (s : String) (sep : Char) : List String :=
  (splitOnChar sep s.data).map (fun cs => ⟨cs⟩)

/-- The ASCII cases of `unicode.IsSpace`: space, TAB, LF, VT, FF, CR. -/
def isSpaceChar (ch : Char) : Bool :=
  ch.toNat = 32 || (9 ≤ ch.toNat && ch.toNat ≤ 13)

/-- `strings.TrimSpace`: drop leading and trailing whitespace. -/
def trimString (s : String) : String :=
  ⟨((s.data.dropWhile isSpaceChar).reverse.dropWhile isSpaceChar).reverse⟩

/-- The digit loop of `strconv.Atoi`. -/
def atoiDigits (acc : Nat) : List Char → Option Nat
  | [] => some acc
  | ch :: rest =>
    if ch.isDigit then atoiDigits (acc * 10 + (ch.toNat - 48)) rest
    else none

/-- `strconv.Atoi`: an optional sign followed by decimal digits; an empty
string, a bare sign, or any non-digit is an error.  (Go's 64-bit overflow
error is not modelled; the octets of interest are far below it.) -/
def atoi (s : String) : Option Int :=
  match s.data with
  | [] => none
  | ch :: rest =>
    if ch = '+' then
      match rest with
      | [] => none
      | _ => (atoiDigits 0 rest).map (fun n => (n : Int))
    else if ch = '-' then
      match rest with
      | [] => none
      | _ => (atoiDigits 0 rest).map (fun n => -(n : Int))
    else (atoiDigits 0 s.data).map (fun n => (n : Int))

/-- `expandIPRange` (`src/unnamed/part_001` lines 455-507).  `strconv.Itoa`
is `toString`.  The code converts only the fourth octet to an integer and
never range-checks any octet against 0-255. -/
def expandIPRange (ipRange : String) : Except String (List String) :=
  let parts := splitString ipRange '-'
  if parts.length ≠ 2 then
    .error "invalid IP range format (use: 192.168.1.1-192.168.1.10)"
  else
    let startIP := trimString (parts.getD 0 "")
    let endIP := trimString (parts.getD 1 "")
    let startIPParts := splitString startIP '.'
    if startIPParts.length ≠ 4 then .error "invalid start IP address"
    else
      let endIPParts := splitString endIP '.'
      if endIPParts.length ≠ 4 then .error "invalid end IP address"
      else
        match atoi (startIPParts.getD 3 "") with
        | none => .error "invalid start IP address"
        | some startOctet =>
          match atoi (endIPParts.getD 3 "") with
          | none => .error "invalid end IP address"
          | some endOctet =>
            if startIPParts.getD 0 "" ≠ endIPParts.getD 0 ""
                ∨ startIPParts.getD 1 "" ≠ endIPParts.getD 1 ""
                ∨ startIPParts.getD 2 "" ≠ endIPParts.getD 2 "" then
              .error "IP range must be in the same /24 subnet"
            else if startOctet > endOctet then
              .error "start IP must be less than or equal to end IP"
            else
              let baseIP := startIPParts.getD 0 "" ++ "."
                ++ startIPParts.getD 1 "" ++ "." ++ startIPParts.getD 2 ""
                ++ "."
              .ok ((intRange startOctet (endOctet + 1)).map
                (fun i => baseIP ++ toString i))

lemma intRange_getElem? (a b : Int) (k : Nat)
    (hk : k < (intRange a b).length) :
    (intRange a b)[k]? = some (a + (k : Int)) := by
  rw [intRange_length] at hk
  simp [intRange, List.getElem?_map, List.getElem?_range hk]

/-- C9: whenever `expandIPRange` succeeds, the result holds exactly
`endOctet - startOctet + 1` addresses, the final octet of the `k`-th being
`startOctet + k` (strictly increasing), each sharing the start IP's first
three octets; and since no octet is checked against 0-255, the range
`"1.2.3.7-1.2.3.999"` still succeeds, with 993 addresses. -/
theorem expandIPRange_success_shape :
    (∀ s ips, expandIPRange s = .ok ips →
      ∃ (a b : Int) (base : String), a ≤ b ∧
        base = (splitString (trimString ((splitString s '-').getD 0 ""))
            '.').getD 0 ""
          ++ "." ++ (splitString (trimString ((splitString s '-').getD 0
            "")) '.').getD 1 ""
          ++ "." ++ (splitString (trimString ((splitString s '-').getD 0
            "")) '.').getD 2 ""
          ++ "." ∧
        (ips.length : Int) = b - a + 1 ∧
        ∀ k : Nat, k < ips.length →
          ips.get? k = some (base ++ toString (a + (k : Int)))) ∧
    (∃ ips, expandIPRange "1.2.3.7-1.2.3.999" = .ok ips ∧
      ips.length = 993) := by
  constructor
  · intro s ips h
    simp only [expandIPRange] at h
    split at h
    · exact Except.noConfusion h
    split at h
    · exact Except.noConfusion h
    split at h
    · exact Except.noConfusion h
    split at h
    · exact Except.noConfusion h
    next a ha =>
    split at h
    · exact Except.noConfusion h
    next b hb =>
    split at h
    · exact Except.noConfusion h
    split at h
    · exact Except.noConfusion h
    next hab =>
    injection h with h
    subst h
    refine ⟨a, b, _, by omega, rfl, ?_, ?_⟩
    · rw [List.length_map, intRange_length]
      omega
    · intro k hk
      rw [List.length_map] at hk
      rw [List.get?_eq_getElem?, List.getElem?_map,
        intRange_getElem? _ _ _ hk]
      rfl
  · exact ⟨(intRange 7 1000).map (fun i => "1.2.3." ++ toString i),
      rfl, by rw [List.length_map, intRange_length]; decide⟩

theorem expandIPRange_success_shape_witness :
    ∃ (a b : Int) (base : String), a ≤ b ∧
      base = (splitString (trimString
          ((splitString "10.0.0.1-10.0.0.3" '-').getD 0 "")) '.').getD 0 ""
        ++ "." ++ (splitString (trimString
          ((splitString "10.0.0.1-10.0.0.3" '-').getD 0 "")) '.').getD 1 ""
        ++ "." ++ (splitString (trimString
          ((splitString "10.0.0.1-10.0.0.3" '-').getD 0 "")) '.').getD 2 ""
        ++ "." ∧
      (((["10.0.0.1", "10.0.0.2", "10.0.0.3"] : List String)).length : Int)
        = b - a + 1 ∧
      ∀ k : Nat,
        k < (["10.0.0.1", "10.0.0.2", "10.0.0.3"] : List String).length →
        (["10.0.0.1", "10.0.0.2", "10.0.0.3"] : List String).get? k
          = some (base ++ toString (a + (k : Int))) :=
  expandIPRange_success_shape.1 "10.0.0.1-10.0.0.3"
    ["10.0.0.1", "10.0.0.2", "10.0.0.3"] rfl

end PortScan
